import Mathlib

/-!
# Verification of the Celeride bus-tracking server

A shallow embedding, in Lean 4, of the parts of the Celeride server that the
specification's claims are about:

* `src/context-manager.js` — the per-user session store (`ContextManager`):
  session creation, expiry, partial updates, message history with its cap,
  and the token-budget filter applied before prompting the model.
* the AI agent module (`ai-agent.js`) — the query-restriction check, the
  retry loop around model calls, tool-call extraction from model output, and
  the four agent tools (`find_routes`, `get_bus_details`, `find_nearest_stops`,
  `get_arrival_time`).

Modelling conventions:

* JavaScript numbers that hold timestamps are modelled as `Int` (milliseconds);
  geographic coordinates and speeds are modelled as `Rat` (the claims under
  study never depend on floating-point rounding; the one genuinely
  floating-point computation, the haversine distance inside
  `find_nearest_stops`, is abstracted as an explicit function parameter).
* `JSON.stringify` on message records is embedded as `stringifyMessage`,
  including the string-escaping rules of ECMA-262 `QuoteJSONString` for the
  code points that can appear in our `Char`-based strings.
* `JSON.parse` is a host-library function; a model response is therefore
  carried together with its parse outcome (`ModelMsg.parsed`), a `JsValue`
  option, rather than re-implementing a JSON parser.
* The JS `Map` of user contexts is an association list with JS `Map`
  semantics: insertion order is preserved, `set` on an existing key keeps its
  position, `delete` removes the entry.
* Wall-clock reads (`Date.now()`, `new Date().toISOString()`, locale time
  strings) are explicit inputs (`now : Int`, `nowIso : String`,
  `timeStr : String`).
-/

/-! ## JavaScript string primitives -/

/-- Substring test on character lists: JS `haystack.includes(needle)`. -/
def charsInclude (hay needle : List Char) : Bool :=
  match hay with
  | [] => needle.isEmpty
  | _ :: tl => needle.isPrefixOf hay || charsInclude tl needle

/-- JS `hay.includes(needle)` on strings. -/
def strIncludes (hay needle : String) : Bool :=
  charsInclude hay.data needle.data

/-- JS `s.toLowerCase()` (ASCII-faithful; we only exercise ASCII data). -/
def jsToLower (s : String) : String := String.mk (s.data.map Char.toLower)

/-- ECMA-262 `QuoteJSONString` escaping of a single character, as performed by
`JSON.stringify` on string values. -/
def escapeJsonChar (c : Char) : List Char :=
  if c = '"' then ['\\', '"']
  else if c = '\\' then ['\\', '\\']
  else if c = '\x08' then ['\\', 'b']
  else if c = '\x09' then ['\\', 't']
  else if c = '\x0a' then ['\\', 'n']
  else if c = '\x0c' then ['\\', 'f']
  else if c = '\x0d' then ['\\', 'r']
  else if c.toNat < 32 then
    let hexDigit (n : Nat) : Char := if n < 10 then Char.ofNat (48 + n) else Char.ofNat (87 + n)
    ['\\', 'u', '0', '0', hexDigit (c.toNat / 16), hexDigit (c.toNat % 16)]
  else [c]

/-- `JSON.stringify` of a string value: surrounding quotes plus escapes. -/
def quoteJson (s : String) : String :=
  "\"" ++ String.mk (s.data.flatMap escapeJsonChar) ++ "\""

/-! ## Messages and their serialization

`addMessageToHistory` builds message records with fields `role`, `content`,
`timestamp` and, when provided, `tool_calls`, `tool_call_id`, `name`, in that
insertion order.  The `tool_calls` payload (a JS array of objects) is carried
here by its JSON serialization, which is all `JSON.stringify` needs of it. -/

structure Message where
  role : String
  content : String
  timestamp : String
  tool_calls : Option String := none
  tool_call_id : Option String := none
  name : Option String := none
deriving Repr, DecidableEq

/-- `JSON.stringify(msg)`: fields in insertion order, optional fields only
when present (JS object keys exist only if they were assigned). -/
def stringifyMessage (m : Message) : String :=
  "\x7b\"role\":" ++ quoteJson m.role
    ++ ",\"content\":" ++ quoteJson m.content
    ++ ",\"timestamp\":" ++ quoteJson m.timestamp
    ++ (match m.tool_calls with
        | some p => ",\"tool_calls\":" ++ p
        | none => "")
    ++ (match m.tool_call_id with
        | some s => ",\"tool_call_id\":" ++ quoteJson s
        | none => "")
    ++ (match m.name with
        | some s => ",\"name\":" ++ quoteJson s
        | none => "")
    ++ "\x7d"

/-- `estimateTokenCount(text)`: 0 for a falsy (empty) string, else
`Math.ceil(text.length / 4)`. -/
def estimateTokenCount (text : String) : Nat :=
  if text.length = 0 then 0 else (text.length + 3) / 4

/-- `estimateTokens(messages)`: sum of per-message token estimates of the
JSON-serialized messages (same reduce appears inline in
`enforceTokenLimits`). -/
def estimateTokens (messages : List Message) : Nat :=
  messages.foldl (fun total msg => total + estimateTokenCount (stringifyMessage msg)) 0

/-! ## The session data model (`createNewContext`) -/

structure Location where
  lat : Rat
  lng : Rat
deriving Repr, DecidableEq

structure BusStop where
  name : String
  latitude : Rat
  longitude : Rat
deriving Repr, DecidableEq

structure Bus where
  busId : String
  latitude : Rat
  longitude : Rat
deriving Repr, DecidableEq

/-- A route as stored by the server: `busId` plus optionally the parsed stop
list (`route.parsedStops` may be absent, hence `Option`). -/
structure Route where
  busId : String
  parsedStops : Option (List BusStop) := none
deriving Repr, DecidableEq

structure Preferences where
  preferredUnits : String
  maxNearbyStops : Nat
  notificationRadius : Nat
deriving Repr, DecidableEq

/-- An entry of the legacy `conversationHistory`. -/
structure ConvEntry where
  timestamp : Int
  userMessage : String
  aiResponse : String
deriving Repr, DecidableEq

/-- A user session, exactly the record literal built by `createNewContext`.
`busStops` is an object mapping bus ids to stop arrays; since the code only
ever takes `Object.values` of it, it is modelled as the list of its value
arrays in insertion order. -/
structure Context where
  userId : String
  userLocation : Option Location
  recentSearches : List String
  activeBuses : List Bus
  busRoutes : List Route
  busStops : List (List BusStop)
  messageHistory : List Message
  conversationHistory : List ConvEntry
  sessionStartTime : Int
  lastUpdated : Int
  preferences : Preferences
deriving Repr, DecidableEq

def defaultPreferences : Preferences :=
  { preferredUnits := "metric", maxNearbyStops := 5, notificationRadius := 500 }

/-- The fresh session record allocated by `createNewContext` at time `now`. -/
def freshContext (userId : String) (now : Int) : Context :=
  { userId := userId
    userLocation := none
    recentSearches := []
    activeBuses := []
    busRoutes := []
    busStops := []
    messageHistory := []
    conversationHistory := []
    sessionStartTime := now
    lastUpdated := now
    preferences := defaultPreferences }

/-! ## The context store (`this.userContexts`, a JS `Map`) -/

/-- The `userContexts` map: association list in insertion order. -/
def Store := List (String × Context)

instance : DecidableEq Store := inferInstanceAs (DecidableEq (List (String × Context)))

/-- JS `Map.prototype.get`. -/
def mapGet (st : Store) (k : String) : Option Context :=
  (List.find? (fun p => p.1 = k) st).map (·.2)

/-- JS `Map.prototype.set`: overwrite in place, or append at the end. -/
def mapSet (st : Store) (k : String) (v : Context) : Store :=
  match st with
  | [] => [(k, v)]
  | (k', v') :: tl => if k' = k then (k, v) :: tl else (k', v') :: mapSet tl k v

/-- `this.maxContextAge = 30 * 60 * 1000` (milliseconds). -/
def maxContextAge : Int := 30 * 60 * 1000

/-- `this.maxHistoryLength = 20`. -/
def maxHistoryLength : Nat := 20

/-- `this.maxTokensPerContext = 8000`. -/
def maxTokensPerContext : Nat := 8000

/-- `createNewContext(userId)`: allocate the fresh record, store it, return
it.  `Date.now()` is the explicit `now` input. -/
def createNewContext (st : Store) (userId : String) (now : Int) : Context × Store :=
  let context := freshContext userId now
  (context, mapSet st userId context)

/-- `getUserContext(userId)`: missing or expired (strictly older than
`maxContextAge`) sessions are replaced by a fresh one; otherwise the stored
session is returned unchanged. -/
def getUserContext (st : Store) (userId : String) (now : Int) : Context × Store :=
  match mapGet st userId with
  | none => createNewContext st userId now
  | some context =>
    if now - context.lastUpdated > maxContextAge then
      createNewContext st userId now
    else
      (context, st)

/-! ## Partial updates (`updateContext`)

A JS update object can mention any session field; each field of the patch is
`none` (key absent or `undefined`), `some none` (key present with value
`null`) or `some (some v)`.  `updateContext` keeps only the keys whose value
is neither `undefined` nor `null` and `Object.assign`s them over the session,
with `lastUpdated := Date.now()` assigned last (hence always winning). -/

structure Patch where
  userId : Option (Option String) := none
  userLocation : Option (Option Location) := none
  recentSearches : Option (Option (List String)) := none
  activeBuses : Option (Option (List Bus)) := none
  busRoutes : Option (Option (List Route)) := none
  busStops : Option (Option (List (List BusStop))) := none
  messageHistory : Option (Option (List Message)) := none
  conversationHistory : Option (Option (List ConvEntry)) := none
  sessionStartTime : Option (Option Int) := none
  lastUpdated : Option (Option Int) := none
  preferences : Option (Option Preferences) := none
deriving Repr, DecidableEq

/-- One field of the `validUpdates`/`Object.assign` step: overwrite only when
the patch value is neither `undefined` nor `null`. -/
def applyField {α : Type} (p : Option (Option α)) (old : α) : α :=
  match p with
  | some (some v) => v
  | _ => old

/-- The same overwrite rule at a field whose stored value is itself nullable
(`userLocation`): only a present, non-`null` patch value overwrites. -/
def applyFieldNullable {α : Type} (p : Option (Option α)) (old : Option α) : Option α :=
  match p with
  | some (some v) => some v
  | _ => old

/-- `updateContext(userId, updates)`. -/
def updateContext (st : Store) (userId : String) (patch : Patch) (now : Int) : Store :=
  let (context, st₁) := getUserContext st userId now
  let context' : Context :=
    { userId := applyField patch.userId context.userId
      userLocation := applyFieldNullable patch.userLocation context.userLocation
      recentSearches := applyField patch.recentSearches context.recentSearches
      activeBuses := applyField patch.activeBuses context.activeBuses
      busRoutes := applyField patch.busRoutes context.busRoutes
      busStops := applyField patch.busStops context.busStops
      messageHistory := applyField patch.messageHistory context.messageHistory
      conversationHistory := applyField patch.conversationHistory context.conversationHistory
      sessionStartTime := applyField patch.sessionStartTime context.sessionStartTime
      lastUpdated := now
      preferences := applyField patch.preferences context.preferences }
  mapSet st₁ userId context'

/-- A whole `Context` passed where an update object is expected (as
`addMessageToHistory` does with `this.updateContext(userId, context)`):
every field is present; the nullable `userLocation` maps to `some none`
when it is `null`. -/
def contextAsPatch (c : Context) : Patch :=
  { userId := some (some c.userId)
    userLocation := some c.userLocation
    recentSearches := some (some c.recentSearches)
    activeBuses := some (some c.activeBuses)
    busRoutes := some (some c.busRoutes)
    busStops := some (some c.busStops)
    messageHistory := some (some c.messageHistory)
    conversationHistory := some (some c.conversationHistory)
    sessionStartTime := some (some c.sessionStartTime)
    lastUpdated := some (some c.lastUpdated)
    preferences := some (some c.preferences) }

/-! ## Message history (`addMessageToHistory`, `truncateHistoryIfNeeded`) -/

/-- JS `array.slice(-n)`: the last `n` elements (the whole array when it is
shorter). -/
def sliceLast {α : Type} (n : Nat) (l : List α) : List α :=
  l.drop (l.length - n)

/-- `truncateHistoryIfNeeded`: truncate to the last `maxHistoryLength`
messages, only when over the cap. -/
def truncateHistoryIfNeeded (history : List Message) : List Message :=
  if history.length > maxHistoryLength then sliceLast maxHistoryLength history
  else history

/-- `addMessageToHistory(userId, role, content, toolCalls, toolCallId, name)`:
build the message (optional fields only when truthy), push it, truncate, then
`updateContext(userId, context)` — whose net effect on the already-stored
mutated record is to refresh `lastUpdated`. -/
def addMessageToHistory (st : Store) (userId role content : String)
    (toolCalls toolCallId nm : Option String) (now : Int) (nowIso : String) : Store :=
  let (context, st₁) := getUserContext st userId now
  let message : Message :=
    { role := role, content := content, timestamp := nowIso
      tool_calls := toolCalls, tool_call_id := toolCallId, name := nm }
  let context₂ : Context :=
    { context with messageHistory := truncateHistoryIfNeeded (context.messageHistory ++ [message]) }
  -- `context.messageHistory.push`/reassignment mutate the record aliased in
  -- the map, modelled by writing `context₂` back before the update call.
  let st₂ := mapSet st₁ userId context₂
  updateContext st₂ userId (contextAsPatch context₂) now

/-! ## Prompt assembly (`buildSystemPrompt`, `getFormattedHistory`,
`enforceTokenLimits`) -/

/-- `buildSystemPrompt(context)`: the template string.  The current-time
locale string is the explicit `timeStr` input; numbers are rendered in
decimal as JS does for the integral values that occur. -/
def buildSystemPrompt (context : Context) (timeStr : String) (now : Int) : String :=
  let locationInfo :=
    match context.userLocation with
    | some loc => "Available at " ++ toString loc.lat ++ ", " ++ toString loc.lng
    | none => "Not provided"
  "Transportation Assistant Context:\n- Current Time: " ++ timeStr
    ++ "\n- User Location: " ++ locationInfo
    ++ "\n- Active Buses: " ++ toString context.activeBuses.length
    ++ "\n- Available Routes: " ++ toString context.busRoutes.length
    ++ "\n- Session Duration: " ++ toString ((now - context.sessionStartTime).fdiv 60000)
    ++ " minutes"

/-- The `while` loop of `enforceTokenLimits`: drop from the front while
messages remain and their estimated tokens exceed the budget.  Note the
measured list is exactly `processedMessages` — the system message, already
shifted off, is not counted. -/
def trimLoop : List Message → List Message
  | [] => []
  | m :: tl =>
    if estimateTokens (m :: tl) > maxTokensPerContext then trimLoop tl
    else m :: tl

/-- `enforceTokenLimits(messages)`. -/
def enforceTokenLimits (messages : List Message) : List Message :=
  let estimatedTokens := estimateTokens messages
  if estimatedTokens ≤ maxTokensPerContext then messages
  else
    -- `processedMessages[0].role === "system" ? processedMessages.shift() : null`
    -- (the empty case is unreachable here: an empty list estimates to 0 tokens)
    let split : Option Message × List Message :=
      match messages with
      | [] => (none, [])
      | m :: tl => if m.role = "system" then (some m, tl) else (none, m :: tl)
    let trimmed := trimLoop split.2
    match split.1 with
    | some systemMessage => systemMessage :: trimmed
    | none => trimmed

/-- `getFormattedHistory(userId, includeSystem)`. -/
def getFormattedHistory (st : Store) (userId : String) (includeSystem : Bool)
    (now : Int) (nowIso timeStr : String) : List Message :=
  let (context, _) := getUserContext st userId now
  let messages :=
    if includeSystem then
      { role := "system", content := buildSystemPrompt context timeStr now
        timestamp := nowIso : Message } :: context.messageHistory
    else context.messageHistory
  enforceTokenLimits messages

/-- `cleanupExpiredContexts()`: delete every session strictly older than
`maxContextAge`; the removed count is only logged — the JS function returns
`undefined`, modelled as the `none` second component. -/
def cleanupExpiredContexts (st : Store) (now : Int) : Store × Option Nat :=
  (st.filter (fun p => !(now - p.2.lastUpdated > maxContextAge)), none)

/-! ## JSON values and JS truthiness (for parsed model responses)

`JSON.parse` output is one of: `null`, booleans, numbers, strings, arrays,
objects.  Numbers are modelled as integers (the payloads under study carry no
fractional literals). -/

inductive JsValue where
  | jnull : JsValue
  | jbool : Bool → JsValue
  | jnum : Int → JsValue
  | jstr : String → JsValue
  | jarr : List JsValue → JsValue
  | jobj : List (String × JsValue) → JsValue
deriving Repr

/-- JS truthiness of a defined value. -/
def jsTruthy : JsValue → Bool
  | .jnull => false
  | .jbool b => b
  | .jnum n => !(n = 0)
  | .jstr s => !(s = "")
  | .jarr _ => true
  | .jobj _ => true

/-- Truthiness of a possibly-`undefined` value. -/
def jsTruthyOpt : Option JsValue → Bool
  | none => false
  | some v => jsTruthy v

/-- Plain property read on a defined, non-`null` value: object lookup, else
`undefined` (prototype chains play no role for the keys involved). -/
def objField (v : JsValue) (key : String) : Option JsValue :=
  match v with
  | .jobj fields => (fields.find? (fun p => p.1 = key)).map (·.2)
  | _ => none

/-- `v.key` with JS exception behaviour: reading a property of `null` throws
a `TypeError` (`.error`); any other value yields the field or `undefined`. -/
def jsGetField (v : JsValue) (key : String) : Except Unit (Option JsValue) :=
  match v with
  | .jnull => .error ()
  | _ => .ok (objField v key)

/-! ## The agent tools (`agentTools`) -/

/-- One qualifying route produced by `find_routes`. -/
structure RouteMatch where
  busId : String
  path : List String
  stopCount : Nat
  estimatedTime : String
deriving Repr, DecidableEq

/-- `find_routes` returns `{success:true, routes}` or `{success:false, message}`. -/
inductive FindRoutesResult where
  | found : List RouteMatch → FindRoutesResult
  | notFound : String → FindRoutesResult
deriving Repr, DecidableEq

/-- The `forEach` callback of `find_routes`: examine one route, pushing a
match onto the accumulated `allRoutes` when it qualifies. -/
def findRoutesStep (fromLower toLower : String) (acc : List RouteMatch) (route : Route) :
    List RouteMatch :=
  let stops := route.parsedStops.getD []
  let fromIndex := stops.findIdx? (fun s => strIncludes (jsToLower s.name) fromLower)
  let toIndex := stops.findIdx? (fun s => strIncludes (jsToLower s.name) toLower)
  match fromIndex, toIndex with
  | some fi, some ti =>
    if fi < ti then
      let path := (stops.drop fi).take (ti + 1 - fi)
      acc ++ [{ busId := route.busId
                path := path.map (·.name)
                stopCount := path.length
                estimatedTime := toString (path.length * 2) ++ " minutes" : RouteMatch }]
    else acc
  | _, _ => acc

/-- `agentTools.find_routes({fromStop, toStop}, context)`. -/
def find_routes (fromStop toStop : String) (context : Context) : FindRoutesResult :=
  let fromLower := jsToLower fromStop
  let toLower := jsToLower toStop
  let allRoutes := context.busRoutes.foldl (findRoutesStep fromLower toLower) []
  if allRoutes.length > 0 then .found allRoutes
  else .notFound ("No direct routes found from " ++ fromStop ++ " to " ++ toStop ++ ".")

/-- `get_bus_details` returns found details or a not-found message. -/
inductive BusDetailsResult where
  | found : Bus → BusDetailsResult
  | notFound : String → BusDetailsResult
deriving Repr, DecidableEq

/-- `agentTools.get_bus_details({busId}, context)` (details trimmed to the
modelled bus fields). -/
def get_bus_details (busId : String) (context : Context) : BusDetailsResult :=
  match context.activeBuses.find? (fun b => jsToLower b.busId = jsToLower busId) with
  | some bus => .found bus
  | none =>
    .notFound ("Bus with ID '" ++ busId ++ "' is not currently active or does not exist.")

/-- A stop of the `find_nearest_stops` answer, with the computed distance
kept numeric (the display strings `distance_km`/`coordinates` are rendered
from these same fields). -/
structure NearStop where
  name : String
  latitude : Rat
  longitude : Rat
  distance : Rat
deriving Repr, DecidableEq

/-- `find_nearest_stops` returns `{error}`, `{message}` (no stops known), or
`{stops}`. -/
inductive NearestResult where
  | locationError : String → NearestResult
  | noStops : String → NearestResult
  | stops : List NearStop → NearestResult
deriving Repr, DecidableEq

/-- Insert into the dedup map keyed by lowercased name: first occurrence
wins, insertion order preserved (JS `Map` semantics). -/
def dedupInsert (acc : List (String × BusStop)) (stop : BusStop) : List (String × BusStop) :=
  let stopKey := jsToLower stop.name
  if (acc.find? (fun p => p.1 = stopKey)).isSome then acc
  else acc ++ [(stopKey, stop)]

/-- Stable insertion into a list sorted by ascending `distance` (JS
`sort((a,b) => a.distance - b.distance)`). -/
def insertByDistance (s : NearStop) : List NearStop → List NearStop
  | [] => [s]
  | t :: tl => if s.distance < t.distance then s :: t :: tl else t :: insertByDistance s tl

/-- Sort by ascending distance. -/
def sortByDistance (l : List NearStop) : List NearStop :=
  l.foldl (fun acc s => insertByDistance s acc) []

/-- `agentTools.find_nearest_stops({count = 3}, context)`.  The haversine
computation over JS floats is abstracted as the `dist` parameter (the claims
under study are independent of the metric used). -/
def find_nearest_stops (count : Nat) (context : Context)
    (dist : Location → BusStop → Rat) : NearestResult :=
  match context.userLocation with
  | none => .locationError "User location is not available. Cannot find nearest stops without it."
  | some loc =>
    if loc.lat = 0 || loc.lng = 0 then
      .locationError "User location is not available. Cannot find nearest stops without it."
    else
      let allStops := (context.busStops.flatten).foldl (fun acc stop =>
        if !(stop.name = "") && !(stop.latitude = 0) && !(stop.longitude = 0) then
          dedupInsert acc stop
        else acc) []
      if allStops.length = 0 then .noStops "No bus stops available to search."
      else
        let stopsWithDistance := allStops.map (fun p =>
          { name := p.2.name, latitude := p.2.latitude, longitude := p.2.longitude
            distance := dist loc p.2 : NearStop })
        .stops ((sortByDistance stopsWithDistance).take count)

/-- `get_arrival_time` returns `{error}` or the arrival estimate (the
locale-formatted `estimatedArrival` clock string is host output rendered
from `estimatedMinutes` and is not separately modelled). -/
inductive ArrivalResult where
  | arrError : String → ArrivalResult
  | arrival : (busId stopName : String) → (estimatedMinutes : Nat) →
      (busLatitude busLongitude : Rat) → ArrivalResult
deriving Repr, DecidableEq

/-- `agentTools.get_arrival_time({busId, stopName}, context)`.  The bus is
looked up case-insensitively; the route by exact `===` on `busId`. -/
def get_arrival_time (busId stopName : String) (context : Context) : ArrivalResult :=
  match context.activeBuses.find? (fun b => jsToLower b.busId = jsToLower busId) with
  | none => .arrError ("Bus " ++ busId ++ " not found or not active.")
  | some bus =>
    match context.busRoutes.find? (fun r => r.busId = busId) with
    | none => .arrError ("Route information not available for bus " ++ busId ++ ".")
    | some route =>
      match route.parsedStops with
      | none => .arrError ("Route information not available for bus " ++ busId ++ ".")
      | some parsedStops =>
        match parsedStops.findIdx? (fun s => strIncludes (jsToLower s.name) (jsToLower stopName)) with
        | none => .arrError ("Stop '" ++ stopName ++ "' not found on route for bus " ++ busId ++ ".")
        | some stopIndex =>
          .arrival busId stopName (stopIndex * 2) bus.latitude bus.longitude

/-! ## The AI agent (`AIAgent`) -/

/-- `this.restrictedWords`. -/
def restrictedWords : List String :=
  ["badword", "inappropriate", "unsafe_topic", "moovit", "other applications"]

/-- `this.maxRetries = 3`. -/
def maxRetries : Nat := 3

/-- `this.retryDelay = 1000` (milliseconds). -/
def retryDelay : Nat := 1000

/-- `isQueryRestricted(userQuery)`. -/
def isQueryRestricted (userQuery : String) : Bool :=
  let query := jsToLower userQuery
  restrictedWords.any (fun word => strIncludes query word)

/-- A model response: the raw `choices[0].message.content` text together with
the outcome of `JSON.parse` on it (`none` when parsing throws), supplied by
the environment since `JSON.parse` is a host-library function. -/
structure ModelMsg where
  raw : String
  parsed : Option JsValue

/-- Outcomes of the successive `makeAPICall` invocations within one
`processQuery` call, numbered in call order; `.error` is a rejected call
(network failure, timeout, non-2xx, malformed response shape). -/
def ApiOracle := Nat → Except Unit ModelMsg

/-- The tool-call extraction of `processQuery`: `JSON.parse` the content,
then null it out unless both `toolCall.tool_name` and `toolCall.arguments`
are truthy; a parse `TypeError` (including property reads on a parsed
`null`) is caught and likewise yields no tool call. -/
def extractToolCall (parsed : Option JsValue) : Option JsValue :=
  match parsed with
  | none => none
  | some v =>
    match jsGetField v "tool_name", jsGetField v "arguments" with
    | .ok tn, .ok ar => if jsTruthyOpt tn && jsTruthyOpt ar then some v else none
    | _, _ => none

/-- Decode a tool argument that the JS tool dereferences as a string (e.g.
`fromStop.toLowerCase()`): anything but a string value throws. -/
def argAsString (v : Option JsValue) : Except Unit String :=
  match v with
  | some (.jstr s) => .ok s
  | _ => .error ()

/-- The union of the tools' return shapes, as placed into `toolResult`. -/
inductive ToolOutcome where
  | routes : FindRoutesResult → ToolOutcome
  | details : BusDetailsResult → ToolOutcome
  | nearest : NearestResult → ToolOutcome
  | arrivalTime : ArrivalResult → ToolOutcome
  | toolMissing : String → ToolOutcome
  | execError : String → ToolOutcome

/-- `agentTools[tool_name](args, context)` — dispatch on the `tool_name`
value, decode the arguments the way each tool dereferences them, and let a
thrown `TypeError` surface as `.error`. -/
def runTool (toolName : Option JsValue) (args : Option JsValue) (context : Context)
    (dist : Location → BusStop → Rat) : Except Unit ToolOutcome :=
  match toolName with
  | some (.jstr "find_routes") => do
    let fromStop ← argAsString (args.bind (objField · "fromStop"))
    let toStop ← argAsString (args.bind (objField · "toStop"))
    .ok (.routes (find_routes fromStop toStop context))
  | some (.jstr "get_bus_details") => do
    let busId ← argAsString (args.bind (objField · "busId"))
    .ok (.details (get_bus_details busId context))
  | some (.jstr "find_nearest_stops") =>
    let count := match args.bind (objField · "count") with
      | some (.jnum n) => n.toNat
      | _ => 3
    .ok (.nearest (find_nearest_stops count context dist))
  | some (.jstr "get_arrival_time") => do
    let busId ← argAsString (args.bind (objField · "busId"))
    let stopName ← argAsString (args.bind (objField · "stopName"))
    .ok (.arrivalTime (get_arrival_time busId stopName context))
  | some (.jstr other) => .ok (.toolMissing ("Tool '" ++ other ++ "' not found."))
  | _ => .ok (.toolMissing "Tool '' not found.")

/-- What one `processQuery` call did: its return value (`none` models the JS
`undefined` of a loop that exits without returning — provably unreachable),
the number of first-stage `makeAPICall` invocations, the delays slept between
retries, and the tool-call object handed to `executeTool`, if any. -/
structure QueryTrace where
  result : Option String
  firstStageCalls : Nat
  delays : List Nat
  dispatched : Option JsValue
  toolOutcome : Option ToolOutcome

/-- `executeTool(toolCall, context, messages)`: record the tool call, run the
tool with its own try/catch (a throw becomes an error `toolResult`), then ask
the model to format the result; a failing final call is caught and mapped to
a fixed string. -/
def executeTool (toolCall : JsValue) (context : Context)
    (dist : Location → BusStop → Rat) (oracle : ApiOracle) (callIdx : Nat)
    (firstStageCalls : Nat) (delays : List Nat) : QueryTrace :=
  let toolName := objField toolCall "tool_name"
  let args := objField toolCall "arguments"
  let toolResult : ToolOutcome :=
    match runTool toolName args context dist with
    | .ok r => r
    | .error _ => .execError "Error executing tool"
  match oracle callIdx with
  | .ok finalMsg =>
    { result := some finalMsg.raw, firstStageCalls := firstStageCalls
      delays := delays, dispatched := some toolCall, toolOutcome := some toolResult }
  | .error _ =>
    { result := some "I retrieved the information but encountered an issue formatting the response."
      firstStageCalls := firstStageCalls
      delays := delays, dispatched := some toolCall, toolOutcome := some toolResult }

/-- The `while (attempt < this.maxRetries)` loop of `processQuery`.  `fuel`
is `maxRetries - attempt`; when it reaches 0 the loop exits and the JS
function returns `undefined` (the catch clause in fact always returns
first). -/
def queryLoop (context : Context) (dist : Location → BusStop → Rat)
    (oracle : ApiOracle) : Nat → Nat → Nat → List Nat → QueryTrace
  | 0, _, calls, delays =>
    { result := none, firstStageCalls := calls, delays := delays
      dispatched := none, toolOutcome := none }
  | fuel + 1, callIdx, calls, delays =>
    match oracle callIdx with
    | .ok initialMsg =>
      match extractToolCall initialMsg.parsed with
      | some toolCall =>
        executeTool toolCall context dist oracle (callIdx + 1) (calls + 1) delays
      | none =>
        { result := some initialMsg.raw, firstStageCalls := calls + 1
          delays := delays, dispatched := none, toolOutcome := none }
    | .error _ =>
      -- catch: `attempt++`; return the apology when retries are exhausted,
      -- otherwise sleep `retryDelay * attempt` and go around again
      let attempt := maxRetries - fuel
      if maxRetries ≤ attempt then
        { result := some "I apologize, but I encountered a technical issue. Please try again."
          firstStageCalls := calls + 1, delays := delays
          dispatched := none, toolOutcome := none }
      else
        queryLoop context dist oracle fuel (callIdx + 1) (calls + 1)
          (delays ++ [retryDelay * attempt])

/-- `processQuery(userQuery, context)`: restricted queries short-circuit;
otherwise run the retry loop from attempt 0. -/
def processQuery (userQuery : String) (context : Context)
    (dist : Location → BusStop → Rat) (oracle : ApiOracle) : QueryTrace :=
  if isQueryRestricted userQuery then
    { result := some "I'm sorry, I can only help with transportation and bus-related queries."
      firstStageCalls := 0, delays := [], dispatched := none, toolOutcome := none }
  else
    queryLoop context dist oracle maxRetries 0 0 []

/-! ## Store lemmas -/

theorem mapGet_mapSet_self (st : Store) (k : String) (v : Context) :
    mapGet (mapSet st k v) k = some v := by
  induction st with
  | nil => simp [mapGet, mapSet, List.find?]
  | cons hd tl ih =>
    obtain ⟨k', v'⟩ := hd
    by_cases h : k' = k
    · subst h
      simp [mapGet, mapSet, List.find?]
    · simpa [mapGet, mapSet, List.find?, h] using ih

/-- Whatever branch `getUserContext` takes, the session it returns is not
expired at `now` (fresh sessions have `lastUpdated = now`). -/
theorem getUserContext_not_expired (st : Store) (uid : String) (now : Int) :
    ¬(now - ((getUserContext st uid now).1).lastUpdated > maxContextAge) := by
  unfold getUserContext
  cases h : mapGet st uid with
  | none =>
    simp [createNewContext, freshContext, maxContextAge]
  | some c =>
    dsimp only
    by_cases hexp : now - c.lastUpdated > maxContextAge
    · rw [if_pos hexp]
      simp [createNewContext, freshContext, maxContextAge]
    · rw [if_neg hexp]
      exact hexp

theorem applyFieldNullable_some_self {α : Type} (o : Option α) :
    applyFieldNullable (some o) o = o := by
  cases o <;> rfl

/-- `updateContext` with the session itself as the update object (the call
`addMessageToHistory` makes) only refreshes `lastUpdated`. -/
theorem updateContext_self_patch (st : Store) (uid : String) (c : Context) (now : Int)
    (h1 : mapGet st uid = some c) (h2 : ¬(now - c.lastUpdated > maxContextAge)) :
    updateContext st uid (contextAsPatch c) now = mapSet st uid { c with lastUpdated := now } := by
  unfold updateContext getUserContext
  rw [h1]
  dsimp only
  rw [if_neg h2]
  simp only [contextAsPatch, applyField, applyFieldNullable_some_self]

theorem sliceLast_length_le {α : Type} (n : Nat) (l : List α) :
    (sliceLast n l).length ≤ n := by
  simp only [sliceLast, List.length_drop]
  omega

theorem truncate_eq_sliceLast (l : List Message) :
    truncateHistoryIfNeeded l = sliceLast maxHistoryLength l := by
  unfold truncateHistoryIfNeeded
  by_cases h : l.length > maxHistoryLength
  · simp [h]
  · simp only [h, if_false, sliceLast]
    have : l.length - maxHistoryLength = 0 := by omega
    simp [this]

/-- **C2.** After any single `addMessageToHistory` operation, from any store
state (hence after each step of any finite sequence of appends), the stored
session's `messageHistory` is exactly the most recent `maxHistoryLength`
(20) of the prior history extended with the new message — the oldest entries
dropped from the front, the rest kept in insertion order — and its length
never exceeds 20. -/
theorem addMessage_caps_history (st : Store) (userId role content : String)
    (toolCalls toolCallId nm : Option String) (now : Int) (nowIso : String) :
    (mapGet (addMessageToHistory st userId role content toolCalls toolCallId nm now nowIso)
        userId).map (·.messageHistory)
      = some (sliceLast maxHistoryLength
          ((getUserContext st userId now).1.messageHistory
            ++ [{ role := role, content := content, timestamp := nowIso
                  tool_calls := toolCalls, tool_call_id := toolCallId, name := nm }]))
    ∧ (sliceLast maxHistoryLength
          ((getUserContext st userId now).1.messageHistory
            ++ [{ role := role, content := content, timestamp := nowIso
                  tool_calls := toolCalls, tool_call_id := toolCallId, name := nm }])).length
        ≤ maxHistoryLength := by
  refine ⟨?_, sliceLast_length_le _ _⟩
  have hne := getUserContext_not_expired st userId now
  rcases hgc : getUserContext st userId now with ⟨c, st₁⟩
  rw [hgc] at hne
  unfold addMessageToHistory
  rw [hgc]
  dsimp only
  rw [updateContext_self_patch _ _ _ _ (mapGet_mapSet_self ..) (by simpa using hne)]
  rw [mapGet_mapSet_self]
  simp [hgc, truncate_eq_sliceLast]

/-- **C3.** A stored session whose `lastUpdated` is more than `maxContextAge`
(30 minutes) older than the current time is discarded on the next
`getUserContext` access: the call returns exactly what `createNewContext`
allocates — empty `messageHistory`, empty legacy `conversationHistory`, no
location, empty search/bus/route/stop data and default preferences —
regardless of the expired session's prior content.  The operation is total
(never fails). -/
theorem expired_session_reset (st : Store) (userId : String) (now : Int) (c : Context)
    (hstored : mapGet st userId = some c)
    (hexpired : now - c.lastUpdated > maxContextAge) :
    getUserContext st userId now = createNewContext st userId now
    ∧ (getUserContext st userId now).1 = freshContext userId now
    ∧ (getUserContext st userId now).1.messageHistory = []
    ∧ (getUserContext st userId now).1.conversationHistory = []
    ∧ (getUserContext st userId now).1.userLocation = none
    ∧ (getUserContext st userId now).1.recentSearches = []
    ∧ (getUserContext st userId now).1.preferences = defaultPreferences := by
  have hres : getUserContext st userId now = createNewContext st userId now := by
    unfold getUserContext
    rw [hstored]
    dsimp only
    rw [if_pos hexpired]
  refine ⟨hres, ?_, ?_, ?_, ?_, ?_, ?_⟩ <;>
    simp [hres, createNewContext, freshContext]

/-- The expired stored session used in the C3 witness. -/
def staleSession : Context :=
  { freshContext "u" 0 with messageHistory :=
      [{ role := "user", content := "old", timestamp := "T" }] }

/-- Witness for **C3**: a session last touched at time 0 is expired at
`now = 1800001` ms and the access returns the fresh defaults. -/
theorem expired_session_reset_witness :
    mapGet [("u", staleSession)] "u" = some staleSession
    ∧ ((1800001 : Int) - staleSession.lastUpdated > maxContextAge)
    ∧ (getUserContext [("u", staleSession)] "u" 1800001).1.messageHistory = []
    ∧ (getUserContext [("u", staleSession)] "u" 1800001).1.userLocation = none := by
  refine ⟨by decide, by decide, ?_, ?_⟩
  · exact (expired_session_reset [("u", staleSession)] "u" 1800001 staleSession
      (by decide) (by decide)).2.2.1
  · exact (expired_session_reset [("u", staleSession)] "u" 1800001 staleSession
      (by decide) (by decide)).2.2.2.2.1

theorem mapGet_eq_none_of_not_mem (st : Store) (uid : String)
    (h : uid ∉ st.map Prod.fst) : mapGet st uid = none := by
  induction st with
  | nil => rfl
  | cons hd tl ih =>
    simp only [List.map_cons, List.mem_cons, not_or] at h
    have hne : ¬(hd.1 = uid) := fun hh => h.1 hh.symm
    simp only [mapGet, List.find?]
    rw [show (decide (hd.1 = uid)) = false by simpa using hne]
    exact ih h.2

theorem mapGet_filter_none (st : Store) (uid : String) (p : String × Context → Bool)
    (h : mapGet st uid = none) : mapGet (st.filter p) uid = none := by
  induction st with
  | nil => rfl
  | cons hd tl ih =>
    simp only [mapGet, List.find?] at h
    rcases hd1 : decide (hd.1 = uid) with _ | _
    · rw [hd1] at h
      by_cases hp : p hd
      · simp only [List.filter, hp, mapGet, List.find?, hd1]
        exact ih h
      · simp only [List.filter, hp]
        exact ih h
    · rw [hd1] at h
      simp at h

/-- **C6 (amended).** `cleanupExpiredContexts` deletes exactly the sessions
whose `lastUpdated` is more than `maxContextAge` older than `now` and leaves
every other session unchanged (for any store whose keys are distinct, as JS
`Map` guarantees); however it returns no value (JS `undefined`) — the removed
count is only logged, not returned. -/
theorem cleanup_removes_exactly_expired (st : Store) (now : Int) (uid : String)
    (hnodup : (st.map Prod.fst).Nodup) :
    mapGet (cleanupExpiredContexts st now).1 uid
      = (mapGet st uid).bind
          (fun c => if now - c.lastUpdated > maxContextAge then none else some c)
    ∧ (cleanupExpiredContexts st now).2 = none := by
  refine ⟨?_, rfl⟩
  induction st with
  | nil => rfl
  | cons hd tl ih =>
    obtain ⟨k, c⟩ := hd
    simp only [List.map_cons, List.nodup_cons] at hnodup
    obtain ⟨hnotmem, htl⟩ := hnodup
    have hmgc : mapGet ((k, c) :: tl) uid
        = if k = uid then some c else mapGet tl uid := by
      by_cases hk : k = uid <;> simp [mapGet, List.find?, hk]
    have hfilter : (cleanupExpiredContexts ((k, c) :: tl) now).1
        = if now - c.lastUpdated > maxContextAge
          then (cleanupExpiredContexts tl now).1
          else (k, c) :: (cleanupExpiredContexts tl now).1 := by
      by_cases hexp : now - c.lastUpdated > maxContextAge <;>
        simp [cleanupExpiredContexts, List.filter, hexp]
    by_cases hexp : now - c.lastUpdated > maxContextAge
    · rw [hfilter, if_pos hexp, hmgc]
      by_cases hk : k = uid
      · rw [if_pos hk]
        have h1 : mapGet tl uid = none :=
          mapGet_eq_none_of_not_mem tl uid (hk ▸ hnotmem)
        have h2 := mapGet_filter_none tl uid
          (fun p => !(now - p.2.lastUpdated > maxContextAge)) h1
        simp only [cleanupExpiredContexts] at h2 ⊢
        rw [h2]
        simp [hexp]
      · rw [if_neg hk]
        exact ih htl
    · rw [hfilter, if_neg hexp, hmgc]
      by_cases hk : k = uid
      · rw [if_pos hk]
        simp [mapGet, List.find?, hk, hexp]
      · rw [if_neg hk]
        have hstep : mapGet ((k, c) :: (cleanupExpiredContexts tl now).1) uid
            = mapGet ((cleanupExpiredContexts tl now).1) uid := by
          simp [mapGet, List.find?, hk]
        rw [hstep]
        exact ih htl

/-- The store used for the C6 witness and counterexample: the session of
`"u"` expired (last touched at time 0), that of `"v"` fresh. -/
def sweepStore : Store := [("u", freshContext "u" 0), ("v", freshContext "v" 1799000)]

/-- Witness for **C6 (amended)**: at `now = 1800001` the expired session is
gone, the fresh one untouched, and the call returns nothing. -/
theorem cleanup_removes_exactly_expired_witness :
    (sweepStore.map Prod.fst).Nodup
    ∧ mapGet (cleanupExpiredContexts sweepStore 1800001).1 "u" = none
    ∧ mapGet (cleanupExpiredContexts sweepStore 1800001).1 "v" = some (freshContext "v" 1799000)
    ∧ (cleanupExpiredContexts sweepStore 1800001).2 = none := by
  refine ⟨by decide, ?_, ?_, ?_⟩
  · have h := (cleanup_removes_exactly_expired sweepStore 1800001 "u" (by decide)).1
    rw [h]; decide
  · have h := (cleanup_removes_exactly_expired sweepStore 1800001 "v" (by decide)).1
    rw [h]; decide
  · exact (cleanup_removes_exactly_expired sweepStore 1800001 "u" (by decide)).2

/-- Counterexample to **C6** as stated: at `now = 1800001` the sweep over
`sweepStore` removes one session (store length drops from 2 to 1), yet the
call's return value is the JS `undefined` (`none`), not the removed count
`some 1` the claim promises. -/
theorem cleanup_count_counterexample :
    sweepStore.length = 2
    ∧ (cleanupExpiredContexts sweepStore 1800001).1.length = 1
    ∧ (cleanupExpiredContexts sweepStore 1800001).2 = none
    ∧ (cleanupExpiredContexts sweepStore 1800001).2 ≠ some 1 := by
  refine ⟨rfl, ?_, rfl, by decide⟩
  decide

/-- **C8.** `updateContext` on a live session overwrites exactly the fields
whose patch value is neither `undefined` (absent) nor `null`, leaves every
field whose patch value is `undefined` or `null` unchanged (the
`applyField`/`applyFieldNullable` equations spell this out), and always sets
`lastUpdated` to the current time; in particular a patch carrying
`location: null` leaves the stored location untouched. -/
theorem updateContext_frame (st : Store) (userId : String) (c : Context) (patch : Patch)
    (now : Int) (h1 : mapGet st userId = some c)
    (h2 : ¬(now - c.lastUpdated > maxContextAge)) :
    mapGet (updateContext st userId patch now) userId
      = some { userId := applyField patch.userId c.userId
               userLocation := applyFieldNullable patch.userLocation c.userLocation
               recentSearches := applyField patch.recentSearches c.recentSearches
               activeBuses := applyField patch.activeBuses c.activeBuses
               busRoutes := applyField patch.busRoutes c.busRoutes
               busStops := applyField patch.busStops c.busStops
               messageHistory := applyField patch.messageHistory c.messageHistory
               conversationHistory := applyField patch.conversationHistory c.conversationHistory
               sessionStartTime := applyField patch.sessionStartTime c.sessionStartTime
               lastUpdated := now
               preferences := applyField patch.preferences c.preferences }
    ∧ (∀ (α : Type) (old : α), applyField none old = old ∧ applyField (some none) old = old)
    ∧ (∀ (α : Type) (old newV : α), applyField (some (some newV)) old = newV)
    ∧ (∀ (α : Type) (old : Option α),
        applyFieldNullable none old = old ∧ applyFieldNullable (some none) old = old)
    ∧ (patch.userLocation = some none →
        (mapGet (updateContext st userId patch now) userId).map (·.userLocation)
          = some c.userLocation) := by
  have hmain : mapGet (updateContext st userId patch now) userId
      = some { userId := applyField patch.userId c.userId
               userLocation := applyFieldNullable patch.userLocation c.userLocation
               recentSearches := applyField patch.recentSearches c.recentSearches
               activeBuses := applyField patch.activeBuses c.activeBuses
               busRoutes := applyField patch.busRoutes c.busRoutes
               busStops := applyField patch.busStops c.busStops
               messageHistory := applyField patch.messageHistory c.messageHistory
               conversationHistory := applyField patch.conversationHistory c.conversationHistory
               sessionStartTime := applyField patch.sessionStartTime c.sessionStartTime
               lastUpdated := now
               preferences := applyField patch.preferences c.preferences } := by
    unfold updateContext getUserContext
    rw [h1]
    dsimp only
    rw [if_neg h2]
    exact mapGet_mapSet_self ..
  refine ⟨hmain, ?_, ?_, ?_, ?_⟩
  · exact fun α old => ⟨rfl, rfl⟩
  · exact fun α old newV => rfl
  · exact fun α old => ⟨rfl, rfl⟩
  · intro hloc
    rw [hmain, hloc]
    rfl

/-- The live session and null-location patch of the C8 witness. -/
def locSession : Context :=
  { freshContext "u" 1000 with userLocation := some { lat := 3, lng := 4 } }

/-- A patch `\x7b location: null, recentSearches: ["q"] \x7d`. -/
def locNullPatch : Patch :=
  { userLocation := some none, recentSearches := some (some ["q"]) }

/-- Witness for **C8**: on a live session, the `location: null` entry is a
no-op, the non-null entry overwrites, and `lastUpdated` is refreshed. -/
theorem updateContext_frame_witness :
    mapGet [("u", locSession)] "u" = some locSession
    ∧ ¬((2000 : Int) - locSession.lastUpdated > maxContextAge)
    ∧ (mapGet (updateContext [("u", locSession)] "u" locNullPatch 2000) "u").map (·.userLocation)
        = some (some { lat := 3, lng := 4 })
    ∧ (mapGet (updateContext [("u", locSession)] "u" locNullPatch 2000) "u").map (·.recentSearches)
        = some (some ["q"])
    ∧ (mapGet (updateContext [("u", locSession)] "u" locNullPatch 2000) "u").map (·.lastUpdated)
        = some 2000 := by
  have h := updateContext_frame [("u", locSession)] "u" locSession locNullPatch 2000
    (by decide) (by decide)
  refine ⟨by decide, by decide, ?_, ?_, ?_⟩
  · rw [h.1]; rfl
  · rw [h.1]; rfl
  · rw [h.1]; rfl

/-! ## C4: route qualification -/

/-- Spec-side qualification for **C4**, phrased from the claim's words: the
route qualifies exactly when the first stop index whose name
case-insensitively contains `fromStop` and the first index containing
`toStop` both exist with `fromIndex < toIndex`; the match carries the
inclusive stop slice as the path and an estimated time of 2 minutes per
stop of the path. -/
def qualifyRouteSpec (fromStop toStop : String) (route : Route) : Option RouteMatch :=
  let stops := route.parsedStops.getD []
  match stops.findIdx? (fun s => strIncludes (jsToLower s.name) (jsToLower fromStop)),
        stops.findIdx? (fun s => strIncludes (jsToLower s.name) (jsToLower toStop)) with
  | some fromIndex, some toIndex =>
    if fromIndex < toIndex then
      let path := (stops.drop fromIndex).take (toIndex + 1 - fromIndex)
      some { busId := route.busId
             path := path.map (·.name)
             stopCount := path.length
             estimatedTime := toString (path.length * 2) ++ " minutes" }
    else none
  | _, _ => none

theorem foldl_append_of_step {α β : Type} (step : List β → α → List β) (g : α → List β)
    (hstep : ∀ acc a, step acc a = acc ++ g a) (l : List α) (acc : List β) :
    l.foldl step acc = acc ++ l.flatMap g := by
  induction l generalizing acc with
  | nil => simp
  | cons a tl ih => simp [hstep, ih, List.append_assoc]

theorem filterMap_eq_flatMap_toList {α β : Type} (f : α → Option β) (l : List α) :
    l.filterMap f = l.flatMap (fun a => (f a).toList) := by
  induction l with
  | nil => rfl
  | cons a tl ih =>
    cases h : f a <;> simp [List.filterMap_cons, h, ih, Option.toList]

theorem findRoutesStep_eq_append (fromStop toStop : String) (acc : List RouteMatch)
    (route : Route) :
    findRoutesStep (jsToLower fromStop) (jsToLower toStop) acc route
      = acc ++ (qualifyRouteSpec fromStop toStop route).toList := by
  unfold findRoutesStep qualifyRouteSpec
  cases hf : (route.parsedStops.getD []).findIdx?
      (fun s => strIncludes (jsToLower s.name) (jsToLower fromStop)) with
  | none =>
    cases ht : (route.parsedStops.getD []).findIdx?
        (fun s => strIncludes (jsToLower s.name) (jsToLower toStop)) <;>
      simp [hf, ht]
  | some fi =>
    cases ht : (route.parsedStops.getD []).findIdx?
        (fun s => strIncludes (jsToLower s.name) (jsToLower toStop)) with
    | none => simp [hf, ht]
    | some ti =>
      by_cases hlt : fi < ti <;> simp [hf, ht, hlt]

/-- The single-route sample context of the C4 claim: one route with stops
`[A, B, C, D]`. -/
def sampleRouteCtx : Context :=
  { freshContext "u" 0 with
    busRoutes := [{ busId := "B1"
                    parsedStops := some [⟨"A", 1, 1⟩, ⟨"B", 1, 1⟩, ⟨"C", 1, 1⟩, ⟨"D", 1, 1⟩] }] }

/-- **C4.** `find_routes` qualifies each route exactly as `qualifyRouteSpec`
prescribes (first case-insensitive-containment indices exist with
`fromIndex < toIndex`; path is the inclusive slice; estimated time is 2
minutes per path stop), answering `success:false` when no route qualifies;
in particular, against a route with stops `[A,B,C,D]`, the query
`A → C` yields path `[A,B,C]`, stopCount 3, estimatedTime `"6 minutes"`, and
the reversed query `C → A` yields the failure result. -/
theorem find_routes_qualification :
    (∀ (context : Context) (fromStop toStop : String),
      find_routes fromStop toStop context
        = (let allRoutes := context.busRoutes.filterMap (qualifyRouteSpec fromStop toStop)
           if allRoutes.length > 0 then .found allRoutes
           else .notFound ("No direct routes found from " ++ fromStop ++ " to " ++ toStop ++ ".")))
    ∧ find_routes "A" "C" sampleRouteCtx
        = .found [{ busId := "B1", path := ["A", "B", "C"], stopCount := 3
                    estimatedTime := "6 minutes" }]
    ∧ find_routes "C" "A" sampleRouteCtx
        = .notFound "No direct routes found from C to A." := by
  refine ⟨?_, by decide, by decide⟩
  intro context fromStop toStop
  simp only [find_routes]
  rw [foldl_append_of_step _ (fun r => (qualifyRouteSpec fromStop toStop r).toList)
      (findRoutesStep_eq_append fromStop toStop) context.busRoutes []]
  rw [← filterMap_eq_flatMap_toList]
  simp only [List.nil_append]

/-! ## C5: arrival-time lookup -/

/-- **C5 (amended).** `get_arrival_time` finds the bus by case-insensitive
`busId` comparison but the route by exact (case-sensitive) `===` comparison
on `busId`; when an exactly-matching route with parsed stops exists and some
stop case-insensitively contains `stopName`, it returns `estimatedMinutes`
equal to 2 times the index of the first matching stop; in every failure case
(inactive bus, no exactly-matching route or missing stop list, stop absent)
it returns an error object rather than throwing. -/
theorem get_arrival_time_characterization (context : Context) (busId stopName : String) :
    (context.activeBuses.find? (fun b => jsToLower b.busId = jsToLower busId) = none →
      get_arrival_time busId stopName context
        = .arrError ("Bus " ++ busId ++ " not found or not active."))
    ∧ (∀ bus, context.activeBuses.find? (fun b => jsToLower b.busId = jsToLower busId) = some bus →
        (context.busRoutes.find? (fun r => r.busId = busId) = none →
          get_arrival_time busId stopName context
            = .arrError ("Route information not available for bus " ++ busId ++ "."))
        ∧ (∀ route, context.busRoutes.find? (fun r => r.busId = busId) = some route →
            (route.parsedStops = none →
              get_arrival_time busId stopName context
                = .arrError ("Route information not available for bus " ++ busId ++ "."))
            ∧ (∀ stops, route.parsedStops = some stops →
                (stops.findIdx? (fun s => strIncludes (jsToLower s.name) (jsToLower stopName))
                    = none →
                  get_arrival_time busId stopName context
                    = .arrError ("Stop '" ++ stopName ++ "' not found on route for bus "
                        ++ busId ++ "."))
                ∧ (∀ stopIndex,
                    stops.findIdx? (fun s => strIncludes (jsToLower s.name) (jsToLower stopName))
                      = some stopIndex →
                    get_arrival_time busId stopName context
                      = .arrival busId stopName (stopIndex * 2) bus.latitude bus.longitude)))) := by
  refine ⟨fun h1 => by simp [get_arrival_time, h1],
    fun bus h1 => ⟨fun h2 => by simp [get_arrival_time, h1, h2],
      fun route h2 => ⟨fun h3 => by simp [get_arrival_time, h1, h2, h3],
        fun stops h3 => ⟨fun h4 => by simp [get_arrival_time, h1, h2, h3, h4],
          fun stopIndex h4 => by simp [get_arrival_time, h1, h2, h3, h4]⟩⟩⟩⟩

/-- The context of the C5 witness and counterexample: bus and route both
stored with id `"BUS7"`, the route with a single stop `"alpha"`. -/
def arrivalCtx : Context :=
  { freshContext "u" 0 with
    activeBuses := [{ busId := "BUS7", latitude := 1, longitude := 2 }]
    busRoutes := [{ busId := "BUS7", parsedStops := some [⟨"alpha", 1, 1⟩] }] }

/-- Witness for **C5 (amended)**: querying with the exact id `"BUS7"`
returns the arrival estimate `2 × 0` for the first stop. -/
theorem get_arrival_time_characterization_witness :
    arrivalCtx.activeBuses.find? (fun b => jsToLower b.busId = jsToLower "BUS7")
      = some { busId := "BUS7", latitude := 1, longitude := 2 }
    ∧ arrivalCtx.busRoutes.find? (fun r => r.busId = "BUS7")
      = some { busId := "BUS7", parsedStops := some [⟨"alpha", 1, 1⟩] }
    ∧ get_arrival_time "BUS7" "alpha" arrivalCtx = .arrival "BUS7" "alpha" 0 1 2 := by
  refine ⟨by decide, by decide, ?_⟩
  exact ((((get_arrival_time_characterization arrivalCtx "BUS7" "alpha").2
      { busId := "BUS7", latitude := 1, longitude := 2 } (by decide)).2
      { busId := "BUS7", parsedStops := some [⟨"alpha", 1, 1⟩] } (by decide)).2
      [⟨"alpha", 1, 1⟩] (by decide)).2 0 (by decide)

/-- Counterexample to **C5** as stated: with bus and route both stored as
`"BUS7"`, the query id `"bus7"` matches both case-insensitively and the stop
matches, yet the tool answers the route-unavailable error — the route lookup
uses exact `===` equality, not a case-insensitive match — instead of the
claimed `estimatedMinutes = 0` arrival. -/
theorem get_arrival_time_case_counterexample :
    (∃ b ∈ arrivalCtx.activeBuses, jsToLower b.busId = jsToLower "bus7")
    ∧ (∃ r ∈ arrivalCtx.busRoutes, jsToLower r.busId = jsToLower "bus7"
        ∧ ∃ s ∈ r.parsedStops.getD [], strIncludes (jsToLower s.name) (jsToLower "alpha"))
    ∧ get_arrival_time "bus7" "alpha" arrivalCtx
        = .arrError "Route information not available for bus bus7."
    ∧ get_arrival_time "bus7" "alpha" arrivalCtx ≠ .arrival "bus7" "alpha" 0 1 2 := by
  refine ⟨?_, ?_, by decide, by decide⟩ <;> decide

/-! ## C10: falsy stops are silently excluded -/

theorem mem_dedupInsert {p : String × BusStop} {acc : List (String × BusStop)} {stop : BusStop}
    (h : p ∈ dedupInsert acc stop) : p ∈ acc ∨ p.2 = stop := by
  unfold dedupInsert at h
  by_cases hk : ((acc.find? (fun q => q.1 = jsToLower stop.name)).isSome : Bool)
  · rw [if_pos hk] at h
    exact Or.inl h
  · rw [if_neg hk] at h
    rcases List.mem_append.mp h with h' | h'
    · exact Or.inl h'
    · simp at h'
      exact Or.inr (by rw [h'])

/-- Every entry accumulated by the dedup fold over the candidate stops
either was in the accumulator already or passed the truthiness filter. -/
theorem mem_filterFold (P : BusStop → Prop) (l : List BusStop)
    (step : List (String × BusStop) → BusStop → List (String × BusStop))
    (hstep : ∀ acc s, step acc s
      = if !(s.name = "") && !(s.latitude = 0) && !(s.longitude = 0)
        then dedupInsert acc s else acc)
    (hP : ∀ s, !(s.name = "") && !(s.latitude = 0) && !(s.longitude = 0) → P s) :
    ∀ (acc : List (String × BusStop)), (∀ p ∈ acc, P p.2) →
      ∀ p ∈ l.foldl step acc, P p.2 := by
  induction l with
  | nil => exact fun acc hacc p hp => hacc p hp
  | cons s tl ih =>
    intro acc hacc p hp
    rw [List.foldl_cons] at hp
    refine ih (step acc s) ?_ p hp
    intro q hq
    rw [hstep] at hq
    by_cases hfilter : (!(s.name = "") && !(s.latitude = 0) && !(s.longitude = 0) : Bool)
    · rw [if_pos hfilter] at hq
      rcases mem_dedupInsert hq with h' | h'
      · exact hacc q h'
      · rw [h']
        exact hP s hfilter
    · rw [if_neg hfilter] at hq
      exact hacc q hq

theorem mem_insertByDistance {x s : NearStop} {l : List NearStop}
    (h : x ∈ insertByDistance s l) : x = s ∨ x ∈ l := by
  induction l with
  | nil => simpa [insertByDistance] using h
  | cons t tl ih =>
    unfold insertByDistance at h
    by_cases hc : s.distance < t.distance
    · rw [if_pos hc] at h
      rcases List.mem_cons.mp h with h' | h'
      · exact Or.inl h'
      · exact Or.inr h'
    · rw [if_neg hc] at h
      rcases List.mem_cons.mp h with h' | h'
      · exact Or.inr (by rw [h']; exact List.mem_cons_self t tl)
      · rcases ih h' with h'' | h''
        · exact Or.inl h''
        · exact Or.inr (List.mem_cons_of_mem t h'')

theorem mem_sortByDistance {x : NearStop} {l : List NearStop}
    (h : x ∈ sortByDistance l) : x ∈ l := by
  unfold sortByDistance at h
  suffices haux : ∀ (l' : List NearStop) (acc : List NearStop),
      x ∈ l'.foldl (fun acc s => insertByDistance s acc) acc → x ∈ acc ∨ x ∈ l' by
    rcases haux l [] h with h' | h'
    · simp at h'
    · exact h'
  intro l'
  induction l' with
  | nil => exact fun acc h => Or.inl h
  | cons s tl ih =>
    intro acc h
    rw [List.foldl_cons] at h
    rcases ih (insertByDistance s acc) h with h' | h'
    · rcases mem_insertByDistance h' with h'' | h''
      · exact Or.inr (h'' ▸ List.mem_cons_self s tl)
      · exact Or.inl h''
    · exact Or.inr (List.mem_cons_of_mem s h')

/-- **C10.** Whenever `find_nearest_stops` answers with a stop list, every
returned stop passed the truthiness filter: its name is non-empty and
neither coordinate is 0 — a stop with an empty name or a 0 latitude or
longitude is silently excluded and never appears in the answer, whatever
distance function governs nearness (in particular even when it would be the
nearest stop). -/
theorem nearest_stops_exclude_falsy (context : Context) (dist : Location → BusStop → Rat)
    (count : Nat) (l : List NearStop)
    (h : find_nearest_stops count context dist = .stops l) :
    ∀ e ∈ l, e.name ≠ "" ∧ e.latitude ≠ 0 ∧ e.longitude ≠ 0 := by
  unfold find_nearest_stops at h
  rcases hloc : context.userLocation with _ | loc
  · rw [hloc] at h
    exact absurd h (by simp)
  · rw [hloc] at h
    dsimp only at h
    by_cases hzero : (loc.lat = 0 || loc.lng = 0 : Bool)
    · rw [if_pos hzero] at h
      exact absurd h (by simp)
    · rw [if_neg hzero] at h
      by_cases hempty : ((context.busStops.flatten).foldl (fun acc stop =>
          if !(stop.name = "") && !(stop.latitude = 0) && !(stop.longitude = 0)
          then dedupInsert acc stop else acc) []).length = 0
      · rw [if_pos hempty] at h
        exact absurd h (by simp)
      · rw [if_neg hempty] at h
        have hl : l = (sortByDistance
            (((context.busStops.flatten).foldl (fun acc stop =>
                if !(stop.name = "") && !(stop.latitude = 0) && !(stop.longitude = 0)
                then dedupInsert acc stop else acc) []).map (fun p =>
              { name := p.2.name, latitude := p.2.latitude, longitude := p.2.longitude
                distance := dist loc p.2 : NearStop }))).take count := by
          injection h with h'
          exact h'.symm
        intro e he
        rw [hl] at he
        have he1 := List.take_subset count _ he
        have he2 := mem_sortByDistance he1
        rcases List.mem_map.mp he2 with ⟨p, hp, hpe⟩
        have hfold := mem_filterFold
          (fun s => s.name ≠ "" ∧ s.latitude ≠ 0 ∧ s.longitude ≠ 0)
          (context.busStops.flatten) _ (fun acc s => rfl)
          (fun s hs => by
            simp only [Bool.and_eq_true, Bool.not_eq_true', decide_eq_false_iff_not] at hs
            exact ⟨hs.1.1, hs.1.2, hs.2⟩)
          [] (by intro p hp; simp at hp) p hp
        rw [← hpe]
        exact hfold

/-- The context of the C10 witness: three falsy stops (empty name, zero
latitude, zero longitude) and one well-formed stop. -/
def nearCtx : Context :=
  { freshContext "u" 0 with
    userLocation := some { lat := 1, lng := 1 }
    busStops := [[⟨"", 2, 2⟩, ⟨"ZeroLat", 0, 2⟩, ⟨"ZeroLng", 2, 0⟩, ⟨"Good", 5, 5⟩]] }

/-- Witness for **C10**: with a distance function ranking every stop equal
(so the falsy stops would be nearest too), only the well-formed stop is
returned, and the theorem applies to it. -/
theorem nearest_stops_exclude_falsy_witness :
    find_nearest_stops 3 nearCtx (fun _ _ => 0)
      = .stops [{ name := "Good", latitude := 5, longitude := 5, distance := 0 }]
    ∧ ∀ e ∈ [{ name := "Good", latitude := 5, longitude := 5, distance := 0 : NearStop }],
        e.name ≠ "" ∧ e.latitude ≠ 0 ∧ e.longitude ≠ 0 := by
  refine ⟨by decide, ?_⟩
  exact nearest_stops_exclude_falsy nearCtx (fun _ _ => 0) 3
    [{ name := "Good", latitude := 5, longitude := 5, distance := 0 }] (by decide)

/-! ## C7: retry exhaustion; C9: tool-call parse gate -/

/-- **C7.** For a non-restricted query, when every first-completion model
call fails, `processQuery` makes exactly `maxRetries = 3` attempts, sleeping
`retryDelay × attempt` (1000 ms, then 2000 ms) between consecutive attempts,
and then resolves to the fixed apologetic string — no tool is dispatched and
no exception escapes (the embedding is a total function: every model-call
and tool failure is caught and mapped to a result value). -/
theorem processQuery_retries_exhaust (userQuery : String) (context : Context)
    (dist : Location → BusStop → Rat) (oracle : ApiOracle)
    (hres : isQueryRestricted userQuery = false)
    (hfail : ∀ k, oracle k = .error ()) :
    processQuery userQuery context dist oracle
      = { result := some "I apologize, but I encountered a technical issue. Please try again."
          firstStageCalls := 3
          delays := [retryDelay * 1, retryDelay * 2]
          dispatched := none
          toolOutcome := none } := by
  unfold processQuery
  rw [hres]
  simp only [Bool.false_eq_true, if_false]
  rw [show maxRetries = 3 from rfl]
  unfold queryLoop
  rw [hfail 0]
  dsimp only
  rw [if_neg (show ¬(maxRetries ≤ maxRetries - 2) by norm_num [maxRetries])]
  unfold queryLoop
  rw [hfail 1]
  dsimp only
  rw [if_neg (show ¬(maxRetries ≤ maxRetries - 1) by norm_num [maxRetries])]
  unfold queryLoop
  rw [hfail 2]
  dsimp only
  rw [if_pos (show maxRetries ≤ maxRetries - 0 by norm_num [maxRetries])]
  rfl

/-- Witness for **C7**: the everywhere-failing oracle on the query
`"hello"`. -/
theorem processQuery_retries_exhaust_witness :
    isQueryRestricted "hello" = false
    ∧ processQuery "hello" (freshContext "u" 0) (fun _ _ => 0) (fun _ => .error ())
        = { result := some "I apologize, but I encountered a technical issue. Please try again."
            firstStageCalls := 3
            delays := [retryDelay * 1, retryDelay * 2]
            dispatched := none
            toolOutcome := none } :=
  ⟨by decide,
   processQuery_retries_exhaust "hello" (freshContext "u" 0) (fun _ _ => 0) (fun _ => .error ())
     (by decide) (fun _ => rfl)⟩

theorem jsGetField_ok (v : JsValue) (key : String) (o : Option JsValue)
    (h : jsGetField v key = .ok o) : objField v key = o := by
  cases v with
  | jnull => exact absurd h (by simp [jsGetField])
  | jbool b => simpa [jsGetField, objField] using h
  | jnum n => simpa [jsGetField, objField] using h
  | jstr s => simpa [jsGetField, objField] using h
  | jarr xs => simpa [jsGetField, objField] using h
  | jobj fields =>
    simpa [jsGetField] using h

/-- Decomposition of a successful tool-call extraction: the parsed value is
an object carrying truthy `tool_name` and `arguments` fields (in particular
both fields are present), and the tool call is that object. -/
theorem extractToolCall_some (p : Option JsValue) (tc : JsValue)
    (h : extractToolCall p = some tc) :
    ∃ v tn ar, p = some v ∧ tc = v
      ∧ objField v "tool_name" = some tn ∧ jsTruthy tn = true
      ∧ objField v "arguments" = some ar ∧ jsTruthy ar = true := by
  unfold extractToolCall at h
  cases p with
  | none => simp at h
  | some v =>
    dsimp only at h
    cases hg1 : jsGetField v "tool_name" with
    | error e => rw [hg1] at h; simp at h
    | ok tn? =>
      cases hg2 : jsGetField v "arguments" with
      | error e => rw [hg1, hg2] at h; simp at h
      | ok ar? =>
        rw [hg1, hg2] at h
        dsimp only at h
        by_cases htr : (jsTruthyOpt tn? && jsTruthyOpt ar? : Bool)
        · rw [if_pos htr] at h
          injection h with h
          simp only [Bool.and_eq_true] at htr
          obtain ⟨ht1, ht2⟩ := htr
          cases tn? with
          | none => simp [jsTruthyOpt] at ht1
          | some tn =>
            cases ar? with
            | none => simp [jsTruthyOpt] at ht2
            | some ar =>
              exact ⟨v, tn, ar, rfl, h.symm,
                jsGetField_ok v "tool_name" _ hg1, by simpa [jsTruthyOpt] using ht1,
                jsGetField_ok v "arguments" _ hg2, by simpa [jsTruthyOpt] using ht2⟩
        · rw [if_neg htr] at h
          simp at h

/-- A parsed value missing either field (or being non-object/`null`, which
has no fields) yields no tool call. -/
theorem extractToolCall_none_of_absent (v : JsValue)
    (habs : objField v "tool_name" = none ∨ objField v "arguments" = none) :
    extractToolCall (some v) = none := by
  unfold extractToolCall
  dsimp only
  cases hg1 : jsGetField v "tool_name" with
  | error e => rfl
  | ok tn? =>
    cases hg2 : jsGetField v "arguments" with
    | error e => rfl
    | ok ar? =>
      have h1 := jsGetField_ok v "tool_name" tn? hg1
      have h2 := jsGetField_ok v "arguments" ar? hg2
      dsimp only
      rcases habs with h | h
      · have htn : tn? = none := by rw [← h1, h]
        subst htn
        simp [jsTruthyOpt]
      · have har : ar? = none := by rw [← h2, h]
        subst har
        simp [jsTruthyOpt]

/-- After one successful first-stage call, `processQuery` either answers the
raw text or hands the extracted tool call to `executeTool`. -/
theorem processQuery_first_ok (userQuery : String) (context : Context)
    (dist : Location → BusStop → Rat) (oracle : ApiOracle) (msg : ModelMsg)
    (hres : isQueryRestricted userQuery = false)
    (hfirst : oracle 0 = .ok msg) :
    processQuery userQuery context dist oracle
      = match extractToolCall msg.parsed with
        | some toolCall => executeTool toolCall context dist oracle 1 1 []
        | none =>
          { result := some msg.raw, firstStageCalls := 1, delays := []
            dispatched := none, toolOutcome := none } := by
  unfold processQuery
  rw [hres]
  simp only [Bool.false_eq_true, if_false]
  rw [show maxRetries = 3 from rfl]
  unfold queryLoop
  rw [hfirst]

/-- **C9.** The agent dispatches a tool only when the model text parses as
JSON carrying both a (truthy) `tool_name` field and a (truthy) `arguments`
field; whenever `JSON.parse` fails, or the parsed value lacks either field
(in particular when `arguments` is missing), the raw response text is
returned as the final answer and no tool is executed. -/
theorem toolcall_parse_gate (userQuery : String) (context : Context)
    (dist : Location → BusStop → Rat) (oracle : ApiOracle) (msg : ModelMsg)
    (hres : isQueryRestricted userQuery = false)
    (hfirst : oracle 0 = .ok msg) :
    ((processQuery userQuery context dist oracle).dispatched.isSome →
      ∃ v tn ar, msg.parsed = some v
        ∧ objField v "tool_name" = some tn ∧ jsTruthy tn = true
        ∧ objField v "arguments" = some ar ∧ jsTruthy ar = true)
    ∧ (msg.parsed = none →
        (processQuery userQuery context dist oracle).result = some msg.raw
        ∧ (processQuery userQuery context dist oracle).dispatched = none
        ∧ (processQuery userQuery context dist oracle).toolOutcome = none)
    ∧ (∀ v, msg.parsed = some v →
        (objField v "tool_name" = none ∨ objField v "arguments" = none) →
        (processQuery userQuery context dist oracle).result = some msg.raw
        ∧ (processQuery userQuery context dist oracle).dispatched = none
        ∧ (processQuery userQuery context dist oracle).toolOutcome = none) := by
  have hrun := processQuery_first_ok userQuery context dist oracle msg hres hfirst
  refine ⟨?_, ?_, ?_⟩
  · intro hdisp
    cases hex : extractToolCall msg.parsed with
    | none =>
      rw [hrun, hex] at hdisp
      simp at hdisp
    | some tc =>
      obtain ⟨v, tn, ar, hp, _, h1, h2, h3, h4⟩ := extractToolCall_some msg.parsed tc hex
      exact ⟨v, tn, ar, hp, h1, h2, h3, h4⟩
  · intro hp
    have hex : extractToolCall msg.parsed = none := by rw [hp]; rfl
    rw [hrun, hex]
    exact ⟨rfl, rfl, rfl⟩
  · intro v hp habs
    have hex : extractToolCall msg.parsed = none := by
      rw [hp]
      exact extractToolCall_none_of_absent v habs
    rw [hrun, hex]
    exact ⟨rfl, rfl, rfl⟩

/-- The model response of the C9 witness: a tool-call-shaped object whose
`arguments` field is missing. -/
def noArgsMsg : ModelMsg :=
  { raw := "RAW", parsed := some (.jobj [("tool_name", .jstr "find_routes")]) }

/-- Witness for **C9**: a response with `tool_name` but no `arguments` is
answered as plain text; no tool runs. -/
theorem toolcall_parse_gate_witness :
    isQueryRestricted "hello" = false
    ∧ objField (.jobj [("tool_name", .jstr "find_routes")]) "arguments" = none
    ∧ (processQuery "hello" (freshContext "u" 0) (fun _ _ => 0)
        (fun _ => .ok noArgsMsg)).result = some "RAW"
    ∧ (processQuery "hello" (freshContext "u" 0) (fun _ _ => 0)
        (fun _ => .ok noArgsMsg)).dispatched = none := by
  have h := (toolcall_parse_gate "hello" (freshContext "u" 0) (fun _ _ => 0)
    (fun _ => .ok noArgsMsg) noArgsMsg (by decide) rfl).2.2
    (.jobj [("tool_name", .jstr "find_routes")]) rfl (Or.inr rfl)
  exact ⟨by decide, rfl, h.1, h.2.1⟩

/-! ## C1: the token budget of `getFormattedHistory` -/

theorem estimateTokens_aux (l : List Message) (n : Nat) :
    l.foldl (fun total msg => total + estimateTokenCount (stringifyMessage msg)) n
      = n + estimateTokens l := by
  induction l generalizing n with
  | nil => simp [estimateTokens]
  | cons m tl ih =>
    have h1 : estimateTokens (m :: tl)
        = tl.foldl (fun total msg => total + estimateTokenCount (stringifyMessage msg))
            (0 + estimateTokenCount (stringifyMessage m)) := rfl
    rw [List.foldl_cons, ih, h1, ih]
    omega

theorem estimateTokens_cons (m : Message) (tl : List Message) :
    estimateTokens (m :: tl)
      = estimateTokenCount (stringifyMessage m) + estimateTokens tl := by
  have h1 : estimateTokens (m :: tl)
      = tl.foldl (fun total msg => total + estimateTokenCount (stringifyMessage msg))
          (0 + estimateTokenCount (stringifyMessage m)) := rfl
  rw [h1, estimateTokens_aux]
  omega

theorem estimateTokens_tail_le (l : List Message) :
    estimateTokens l.tail ≤ estimateTokens l := by
  cases l with
  | nil => exact Nat.le_refl _
  | cons m tl =>
    rw [List.tail_cons, estimateTokens_cons]
    omega

/-- The eviction loop never leaves more than the budget in the list it
measures (which excludes the shifted-off system message). -/
theorem trimLoop_le (l : List Message) :
    estimateTokens (trimLoop l) ≤ maxTokensPerContext := by
  induction l with
  | nil => simp [trimLoop, estimateTokens]
  | cons m tl ih =>
    unfold trimLoop
    by_cases h : estimateTokens (m :: tl) > maxTokensPerContext
    · rw [if_pos h]
      exact ih
    · rw [if_neg h]
      omega

theorem enforceTokenLimits_drop_le (messages : List Message) :
    estimateTokens ((enforceTokenLimits messages).drop 1) ≤ maxTokensPerContext := by
  unfold enforceTokenLimits
  by_cases h : estimateTokens messages ≤ maxTokensPerContext
  · rw [if_pos h]
    rw [List.drop_one]
    exact Nat.le_trans (estimateTokens_tail_le messages) h
  · rw [if_neg h]
    cases messages with
    | nil => simp [trimLoop, estimateTokens]
    | cons m tl =>
      dsimp only
      by_cases hrole : m.role = "system"
      · rw [if_pos hrole]
        dsimp only
        rw [List.drop_one, List.tail_cons]
        exact trimLoop_le tl
      · rw [if_neg hrole]
        dsimp only
        rw [List.drop_one]
        exact Nat.le_trans (estimateTokens_tail_le _) (trimLoop_le (m :: tl))

theorem enforceTokenLimits_head_system (m : Message) (tl : List Message)
    (hrole : m.role = "system") :
    (enforceTokenLimits (m :: tl)).head? = some m := by
  unfold enforceTokenLimits
  by_cases h : estimateTokens (m :: tl) ≤ maxTokensPerContext
  · rw [if_pos h]
    rfl
  · rw [if_neg h]
    dsimp only
    rw [if_pos hrole]
    rfl

/-- **C1 (amended).** `getFormattedHistory` guarantees the token budget of
8000 only for the returned sequence *minus its first message*: the eviction
loop measures the non-system tail with the system message already shifted
off, so the re-inserted system message's own tokens may push the returned
total above the budget even while non-system messages remain.  With
`includeSystem = true` the first returned message is always the synthesized
system message. -/
theorem getFormattedHistory_budget (st : Store) (userId : String) (includeSystem : Bool)
    (now : Int) (nowIso timeStr : String) :
    estimateTokens ((getFormattedHistory st userId includeSystem now nowIso timeStr).drop 1)
      ≤ maxTokensPerContext
    ∧ (includeSystem = true →
        (getFormattedHistory st userId includeSystem now nowIso timeStr).head?.map (·.role)
          = some "system") := by
  unfold getFormattedHistory
  rcases hgc : getUserContext st userId now with ⟨c, st₁⟩
  dsimp only
  cases includeSystem with
  | false =>
    exact ⟨enforceTokenLimits_drop_le _, fun hcontra => by cases hcontra⟩
  | true =>
    refine ⟨enforceTokenLimits_drop_le _, fun _ => ?_⟩
    rw [if_pos rfl, enforceTokenLimits_head_system _ _ rfl]
    rfl

/-- Witness for **C1 (amended)**: on the empty store (fresh session, empty
history) the returned sequence is the lone system message; the tail is
within budget and the head is the system message. -/
theorem getFormattedHistory_budget_witness :
    estimateTokens ((getFormattedHistory [] "u" true 0 "T" "T").drop 1) ≤ maxTokensPerContext
    ∧ (getFormattedHistory [] "u" true 0 "T" "T").head?.map (·.role) = some "system" :=
  ⟨(getFormattedHistory_budget [] "u" true 0 "T" "T").1,
   (getFormattedHistory_budget [] "u" true 0 "T" "T").2 rfl⟩

/-- A 1556-character user message whose JSON serialization is 1600
characters, i.e. exactly 400 estimated tokens. -/
def bigMsg : Message :=
  { role := "user", content := String.mk (List.replicate 1556 'a'), timestamp := "T" }

/-- A live session holding twenty 400-token messages (8000 tokens of
history, the reachable cap of 20 messages). -/
def overBudgetCtx : Context :=
  { freshContext "u" 100 with messageHistory := List.replicate 20 bigMsg }

def overBudgetStore : Store := [("u", overBudgetCtx)]

set_option maxRecDepth 10000 in
/-- Counterexample to **C1** as stated: for this session the sequence
returned by `getFormattedHistory` (with the system preamble) estimates to
8051 tokens — above the 8000 budget — while 21 messages, 20 of them
non-system, remain in it: the eviction loop measured only the 8000-token
non-system tail, found it within budget, dropped nothing, and re-inserted
the 51-token system message on top. -/
theorem token_budget_counterexample :
    estimateTokens (getFormattedHistory overBudgetStore "u" true 100 "T" "T")
        > maxTokensPerContext
    ∧ (getFormattedHistory overBudgetStore "u" true 100 "T" "T").length = 21 := by
  decide
